import Mathlib

/-!
Shallow embedding of `tordown.py`, a CLI tool that lists the files of a
torrent, filters them by a month (and optional year) encoded in the file
name, optionally writes a reduced torrent holding only the matching files,
and optionally drives a download of those files.

Modelling conventions:
* Python `int` is `Int` (`Nat` where the source value is manifestly a count);
* Python floats are modelled as exact rationals; `f"{x:.0f}"` formatting is
  round-half-to-even (`roundHalfEven`), which agrees with CPython whenever the
  quotient is exactly representable as a double;
* Python `re.search` with the concrete end-anchored patterns of the source is
  modelled by an explicit suffix matcher, including the CPython rule that `$`
  also matches just before one trailing newline;
* `\d` is modelled as an ASCII digit `0-9` (CPython also accepts non-ASCII
  Unicode decimal digits; the data-set file names this tool targets are ASCII);
* process-level effects (exit codes, stdout/stderr lines) are reified in a
  `RunResult` record, and the external world (HTTP fetch outcome, torrent
  parse outcome, libtorrent status stream, user interrupt) is an `Env` record.
-/

deriving instance DecidableEq for Except

namespace Tordown

/-- A `(path, size-in-bytes)` pair of a torrent's file list
(`torrent.files` entries in the source). -/
structure TorrentFile where
  path : String
  size : Nat
deriving DecidableEq, Repr

/-- The torrent descriptor fields the program reads or writes:
comment, created-by, announce URLs and the ordered file list. -/
structure Torrent where
  comment : Option String
  created_by : Option String
  announce_urls : List (List String)
  files : List TorrentFile
deriving DecidableEq, Repr

/-- One entry of the list built by `get_torrent_file_list`:
a 1-based index, the path, the human-readable size produced by
`format_size`, and the thousands-separated byte count. -/
structure FileEntry where
  index : Int
  path : String
  size : String
  size_bytes : String
deriving DecidableEq, Repr

/-- Round-half-to-even of the exact rational `n / d` (`d > 0`), the rounding
CPython's `f"{x:.0f}"` applies (floats modelled as exact rationals). -/
def roundHalfEven (n d : Nat) : Nat :=
  let q := n / d
  let r := n % d
  if 2 * r < d then q
  else if d < 2 * r then q + 1
  else if q % 2 = 0 then q else q + 1

/-- `format_size` from the source: bytes below 1024 are printed exactly with
suffix `B`; otherwise the count is divided by 1024, 1024², 1024³ and rounded
(`:.0f`) with suffix `KiB`, `MiB`, `GiB` respectively. -/
def format_size (size_bytes : Nat) : String :=
  if size_bytes < 1024 then toString size_bytes ++ "B"
  else if size_bytes < 1024 ^ 2 then toString (roundHalfEven size_bytes 1024) ++ "KiB"
  else if size_bytes < 1024 ^ 3 then toString (roundHalfEven size_bytes (1024 ^ 2)) ++ "MiB"
  else toString (roundHalfEven size_bytes (1024 ^ 3)) ++ "GiB"

/-- Helper for `py_thousands`: insert a separator after every third character
of a reversed digit string. -/
def commaRev : List Char → List Char
  | a :: b :: c :: d :: rest => a :: b :: c :: ',' :: commaRev (d :: rest)
  | l => l

/-- Python `f"{n:,}"` on a natural number: decimal digits grouped in threes
from the right, separated by commas. -/
def py_thousands (n : Nat) : String :=
  ⟨(commaRev (toString n).data.reverse).reverse⟩

/-- The entry `get_torrent_file_list` builds for the file at 0-based
position `k`: a 1-based index alongside the path, the `format_size`
rendering, and the `:,`-formatted byte count. -/
def mkEntry (k : Nat) (tf : TorrentFile) : FileEntry :=
  { index := (k : Int) + 1
    path := tf.path
    size := format_size tf.size
    size_bytes := py_thousands tf.size }

/-- The file-entry list built by `get_torrent_file_list` from a parsed
torrent: `enumerate(torrent.files, 1)`. -/
def torrentFileEntries (t : Torrent) : List FileEntry :=
  t.files.enum.map fun p => mkEntry p.1 p.2

/-- Python `f"{int(month):02d}"`: the decimal rendering of the month,
zero-padded on the left to width 2. -/
def month_str (m : Int) : String :=
  if 0 ≤ m ∧ m < 10 then "0" ++ toString m else toString m

/-- The source's `\d`, modelled as an ASCII decimal digit (see file header). -/
def pyDigit (c : Char) : Bool := c.isDigit

/-- CPython `$` (without `re.MULTILINE`) matches at the end of the subject or
just before one newline that ends it; equivalently, an `X$` pattern matches
iff `X` matches at the end of the subject stripped of one final newline. -/
def stripFinalNewline (l : List Char) : List Char :=
  if l.getLast? = some '\n' then l.dropLast else l

/-- The literal regex body `_{year}-{month_str}\.zst` used when a year is
given (the year is interpolated as its decimal rendering, unpadded). -/
def yearPat (y : Int) (m : Int) : List Char :=
  ("_" ++ toString y ++ "-" ++ month_str m ++ ".zst").data

/-- The trailing literal `-{month_str}\.zst` shared by both patterns. -/
def monthTail (m : Int) : List Char :=
  '-' :: (month_str m).data ++ ".zst".data

/-- `re.search` of the source's pattern
(`_\d{4}-MM\.zst$` or `_{year}-MM\.zst$`) against a path. The `$` anchor
pins the match to the end of the path (modulo one trailing newline), so the
search reduces to a suffix test; in the no-year case the four characters
before the tail must be digits preceded by `_`. -/
def re_search_month (path : List Char) (m : Int) (year : Option Int) : Bool :=
  let core := stripFinalNewline path
  match year with
  | some y => (yearPat y m).isSuffixOf core
  | none =>
    (monthTail m).isSuffixOf core &&
      (match (core.take (core.length - (monthTail m).length)).reverse with
       | d4 :: d3 :: d2 :: d1 :: u :: _ =>
         u == '_' && pyDigit d1 && pyDigit d2 && pyDigit d3 && pyDigit d4
       | _ => false)

/-- `filter_by_month` from the source: keep the entries whose `path` the
month pattern matches. -/
def filter_by_month (files : List FileEntry) (month : Int) (year : Option Int) :
    List FileEntry :=
  files.filter fun f => re_search_month f.path.data month year

/-- The spec's matching condition, stated from its words: the path contains
the substring `_YYYY-MM.zst` at its very end, where `MM` is the zero-padded
month, `YYYY` is the decimal rendering of the year when one is given, and
any four digit characters when the year is omitted. -/
def spec_matches_month (path : List Char) (m : Int) (year : Option Int) : Prop :=
  match year with
  | some y => yearPat y m <:+ path
  | none => ∃ d1 d2 d3 d4, pyDigit d1 ∧ pyDigit d2 ∧ pyDigit d3 ∧ pyDigit d4 ∧
      ('_' :: d1 :: d2 :: d3 :: d4 :: monthTail m) <:+ path

/-- Python list indexing `l[i]`: non-negative indices from the front,
negative indices from the back; `none` models an `IndexError`. -/
def pyGet (l : List TorrentFile) (i : Int) : Option TorrentFile :=
  if 0 ≤ i then l[i.toNat]?
  else if 0 ≤ i + l.length then l[(i + l.length).toNat]?
  else none

/-- The list comprehension of `save_filtered_torrent`:
`[files[idx] for idx in indices if idx < len(files)]`.
An index below `-len(files)` passes the guard but raises `IndexError`,
modelled as `.error`. -/
def buildNewFiles (files : List TorrentFile) (indices : List Int) :
    Except String (List TorrentFile) :=
  match indices with
  | [] => .ok []
  | idx :: rest =>
    if idx < (files.length : Int) then
      match pyGet files idx with
      | some f => (buildNewFiles files rest).map (f :: ·)
      | none => .error "IndexError: list index out of range"
    else buildNewFiles files rest

/-- `save_filtered_torrent` from the source: the new torrent keeps the
original's comment and announce URLs, sets its own `created_by`, and holds
the original `(path, size)` pairs at positions `index - 1` of the filtered
entries (skipping positions at or beyond the end of the original list);
an empty result is reported and aborts with exit status 1 (`.error`). -/
def save_filtered_torrent (original : Torrent) (filtered : List FileEntry) :
    Except String Torrent :=
  match buildNewFiles original.files (filtered.map fun f => f.index - 1) with
  | .error e => .error e
  | .ok new_files =>
    if new_files.isEmpty then .error "No files to include in the filtered torrent"
    else .ok { comment := original.comment
               created_by := some "Torrent Month Filter"
               announce_urls := original.announce_urls
               files := new_files }

/-- The libtorrent torrent states consulted by the polling loop, with their
numeric codes (the source compares states with `>=`, which is numeric). -/
inductive TState
  | checking_files
  | downloading_metadata
  | downloading
  | finished
  | seeding
  | allocating
  | checking_resume_data
deriving DecidableEq, Repr

/-- The numeric value of a libtorrent state (`torrent_status.states`). -/
def TState.natCode : TState → Nat
  | .checking_files => 1
  | .downloading_metadata => 2
  | .downloading => 3
  | .finished => 4
  | .seeding => 5
  | .allocating => 6
  | .checking_resume_data => 7

/-- The fields of `handle.status()` the loop reads. `progress` is a fraction
in `[0,1]`; floats are modelled as exact rationals. -/
structure TStatus where
  state : TState
  progress : ℚ
deriving DecidableEq, Repr

/-- Observable timing events of the polling loop: one status check, then one
one-second sleep, per iteration (the progress line printed between them is
display-only and not modelled). -/
inductive Ev
  | check
  | sleep
deriving DecidableEq, Repr

/-- Why the polling loop stopped. -/
inductive ExitReason
  | completed
  | interrupted
deriving DecidableEq, Repr

/-- One pass of the polling loop per element of `statuses` (the stream of
`handle.status()` results), with `intr = some k` modelling a
`KeyboardInterrupt` raised during the `k`-th one-second sleep. Per the
source: break before the sleep when the state is `seeding`; break after the
sleep when `progress >= 0.999` and the state code is at least `finished`'s.
A `none` verdict means the status stream was exhausted with the loop still
running (the real loop is endless). -/
def loopTraceAux : List TStatus → Option Nat → Nat → List Ev × Option ExitReason
  | [], _, _ => ([], none)
  | s :: rest, intr, k =>
    if s.state = TState.seeding then ([Ev.check], some ExitReason.completed)
    else if intr = some k then ([Ev.check, Ev.sleep], some ExitReason.interrupted)
    else if 999 / 1000 ≤ s.progress ∧ 4 ≤ s.state.natCode then
      ([Ev.check, Ev.sleep], some ExitReason.completed)
    else
      let r := loopTraceAux rest intr (k + 1)
      (Ev.check :: Ev.sleep :: r.1, r.2)

/-- The polling loop of `download_filtered_files`, started at iteration 0. -/
def pollLoop (statuses : List TStatus) (intr : Option Nat) :
    List Ev × Option ExitReason :=
  loopTraceAux statuses intr 0

/-- The per-file priority vector of `download_filtered_files`:
`[1 if i in file_indices else 0 for i in range(info.num_files())]` where
`file_indices = {f['index'] - 1 for f in filtered_files}`. -/
def file_priorities (numFiles : Nat) (filtered : List FileEntry) : List Nat :=
  (List.range numFiles).map fun (i : Nat) =>
    if (i : Int) ∈ filtered.map (fun f => f.index - 1) then 1 else 0

/-- The outcome of `download_filtered_files`: the priority vector handed to
`handle.prioritize_files` and the polling-loop trace. -/
structure DownloadRun where
  priorities : List Nat
  loopResult : List Ev × Option ExitReason
deriving DecidableEq, Repr

/-- `download_filtered_files` from the source, as a function of the torrent's
file count (`info.num_files()`), the filtered entries, and the external
status stream / interrupt. -/
def download_filtered_files (numFiles : Nat) (filtered : List FileEntry)
    (statuses : List TStatus) (intr : Option Nat) : DownloadRun :=
  { priorities := file_priorities numFiles filtered
    loopResult := pollLoop statuses intr }

/-- The parsed command line (`argparse` namespace). -/
structure Args where
  torrent : String
  month : Int
  year : Option Int
  output : Option String
  download : Bool
  download_dir : Option String
deriving Repr

/-- The external world `main` interacts with: the HTTP fetch outcome for a
URL argument, the torrent parse outcome, the libtorrent status stream with
an optional interrupt, and the working directory. -/
structure Env where
  httpResult : Except String Unit
  parseResult : Except String Torrent
  statuses : List TStatus
  intr : Option Nat
  cwd : String
deriving Repr

/-- The observable outcome of a run of `main`: the process exit status, the
stdout and stderr lines (in order, up to the download phase whose progress
lines are abstracted), and the polling-loop trace when a download ran. -/
structure RunResult where
  exitCode : Nat
  stdout : List String
  stderr : List String
  loop : Option (List Ev × Option ExitReason)
deriving DecidableEq, Repr

/-- `torrent_path.startswith(('http://', 'https://'))`. -/
def isHttpUrl (s : String) : Bool :=
  match s.data with
  | 'h' :: 't' :: 't' :: 'p' :: ':' :: '/' :: '/' :: _ => true
  | 'h' :: 't' :: 't' :: 'p' :: 's' :: ':' :: '/' :: '/' :: _ => true
  | _ => false

/-- Python `f" and year {args.year}" if args.year else ""`: empty for a
missing year and — by Python truthiness — also for year `0`. -/
def yearSuffixMsg : Option Int → String
  | some y => if y = 0 then "" else " and year " ++ toString y
  | none => ""

/-- The "no files" line printed to stdout by `main`. -/
def noFilesMsg (m : Int) (y : Option Int) : String :=
  "No files found for month " ++ toString m ++ yearSuffixMsg y

/-- The "found" header printed to stdout by `main`. -/
def foundMsg (n : Nat) (m : Int) (y : Option Int) : String :=
  "Found " ++ toString n ++ " files for month " ++ toString m ++ yearSuffixMsg y

/-- The per-file listing block of `main`: index|path, size line, dashes. -/
def listingLines (fs : List FileEntry) : List String :=
  (fs.map fun f =>
    [toString f.index ++ "|" ++ f.path,
     "   |" ++ f.size ++ " (" ++ f.size_bytes ++ ")",
     String.mk (List.replicate 75 '-')]).flatten

/-- The tail of `main` after the listing: optionally run the download, using
the filtered torrent's file count when one was saved, the original's
otherwise, and the requested (or current) directory. -/
def afterSave (a : Args) (env : Env) (t : Torrent) (filtered : List FileEntry)
    (saved : Option Torrent) (out : List String) : RunResult :=
  if a.download then
    let numFiles := match saved with
      | some nt => nt.files.length
      | none => t.files.length
    let dir := a.download_dir.getD env.cwd
    let dl := download_filtered_files numFiles filtered env.statuses env.intr
    { exitCode := 0
      stdout := out ++
        ["Starting download of " ++ toString filtered.length ++ " files to " ++ dir,
         "Press Ctrl+C to stop the download"]
      stderr := []
      loop := some dl.loopResult }
  else { exitCode := 0, stdout := out, stderr := [], loop := none }

/-- `main` after the torrent was parsed: build the entry list, filter it; an
empty filter result prints to stdout and exits 0; otherwise print the
listing, save the filtered torrent when requested (failures go to stderr
with exit 1), then optionally download. -/
def afterFetch (a : Args) (env : Env) : RunResult :=
  match env.parseResult with
  | .error e => { exitCode := 1, stdout := [], stderr := ["Error parsing torrent: " ++ e], loop := none }
  | .ok t =>
    let files := torrentFileEntries t
    let filtered := filter_by_month files a.month a.year
    if filtered.isEmpty then
      { exitCode := 0, stdout := [noFilesMsg a.month a.year], stderr := [], loop := none }
    else
      let header := foundMsg filtered.length a.month a.year
      let out := header :: listingLines filtered
      match a.output with
      | none => afterSave a env t filtered none out
      | some op =>
        let opath := if (".torrent".data).isSuffixOf op.data then op else op ++ ".torrent"
        match save_filtered_torrent t filtered with
        | .error msg => { exitCode := 1, stdout := out, stderr := [msg], loop := none }
        | .ok newT =>
          afterSave a env t filtered (some newT)
            (out ++ ["Created filtered torrent: " ++ opath])

/-- `main` after month validation: for a URL argument, a failed HTTP fetch
prints to stderr and exits 1; then the torrent is parsed. -/
def run_main_validated (a : Args) (env : Env) : RunResult :=
  if isHttpUrl a.torrent then
    match env.httpResult with
    | .error e =>
      { exitCode := 1, stdout := [], stderr := ["Error downloading torrent: " ++ e], loop := none }
    | .ok _ => afterFetch a env
  else afterFetch a env

/-- `main` from the source: month validation first (exit 1 to stderr for a
month outside 1..12), then fetch/parse/filter/save/download. -/
def run_main (a : Args) (env : Env) : RunResult :=
  if a.month < 1 ∨ 12 < a.month then
    { exitCode := 1, stdout := [], stderr := ["Error: Month must be between 1 and 12"], loop := none }
  else run_main_validated a env

/-- The polling loop's completion condition at an observed status, from the
source: the `seeding` state (checked before the sleep), or
`progress >= 0.999` with a state code at least `finished`'s (checked after
the sleep). -/
def loopExitCond (s : TStatus) : Prop :=
  s.state = TState.seeding ∨ (999 / 1000 ≤ s.progress ∧ 4 ≤ s.state.natCode)

instance (s : TStatus) : Decidable (loopExitCond s) := by
  unfold loopExitCond; infer_instance

/-- A strictly alternating check/sleep event trace (starting with a check):
one status check per one-second sleep. -/
def altTrace : List Ev → Bool
  | [] => true
  | [Ev.check] => true
  | Ev.check :: Ev.sleep :: t => altTrace t
  | _ => false

/-- Concrete torrent used by witnesses: two files, the second matching
month 1 of 2023. -/
def sampleTorrent : Torrent :=
  { comment := some "c"
    created_by := some "orig"
    announce_urls := [["http://tr"]]
    files := [⟨"x.bin", 100⟩, ⟨"a_2023-01.zst", 2048⟩] }

/-- Concrete benign environment used by witnesses. -/
def sampleEnv : Env :=
  { httpResult := .ok ()
    parseResult := .ok sampleTorrent
    statuses := []
    intr := none
    cwd := "/work" }

/-- The filtered entries of the sample torrent for month 1 (no year). -/
def sampleFiltered : List FileEntry :=
  filter_by_month (torrentFileEntries sampleTorrent) 1 none

/-- The torrent `save_filtered_torrent` produces for the sample torrent and
its month-1 entries. -/
def sampleSaved : Torrent :=
  { comment := some "c"
    created_by := some "Torrent Month Filter"
    announce_urls := [["http://tr"]]
    files := [⟨"a_2023-01.zst", 2048⟩] }

/-- Concrete failing environment used by witnesses: the HTTP fetch and the
torrent parse both fail. -/
def badEnv : Env :=
  { httpResult := .error "boom"
    parseResult := .error "bad"
    statuses := []
    intr := none
    cwd := "/w" }

/-- With a valid month and a URL argument, a failed HTTP fetch is fatal:
one stderr line, exit status 1, nothing else. -/
theorem run_main_http_error (a : Args) (env : Env) (e : String)
    (hm : 1 ≤ a.month ∧ a.month ≤ 12)
    (hu : isHttpUrl a.torrent = true) (he : env.httpResult = .error e) :
    run_main a env =
      { exitCode := 1, stdout := [],
        stderr := ["Error downloading torrent: " ++ e], loop := none } := by
  simp only [run_main]
  rw [if_neg (by omega)]
  simp only [run_main_validated, hu, if_pos, he]

/-- With a valid month and the fetch stage passed, a failed torrent parse is
fatal: one stderr line, exit status 1, nothing else. -/
theorem run_main_parse_error (a : Args) (env : Env) (e : String)
    (hm : 1 ≤ a.month ∧ a.month ≤ 12)
    (hu : isHttpUrl a.torrent = false ∨ env.httpResult = .ok ())
    (he : env.parseResult = .error e) :
    run_main a env =
      { exitCode := 1, stdout := [],
        stderr := ["Error parsing torrent: " ++ e], loop := none } := by
  simp only [run_main]
  rw [if_neg (by omega)]
  have hfetch : run_main_validated a env = afterFetch a env := by
    rcases hu with hu | hu
    · simp only [run_main_validated, hu, Bool.false_eq_true, if_false]
    · by_cases hb : isHttpUrl a.torrent
      · simp only [run_main_validated, hb, if_true, hu]
      · simp only [run_main_validated, hb, Bool.false_eq_true, if_false]
  rw [hfetch]
  simp only [afterFetch, he]

/-- With a valid month and a successfully parsed torrent, an empty filter
result prints the "no files" line to stdout and exits with status 0. -/
theorem run_main_no_match (a : Args) (env : Env) (t : Torrent)
    (hm : 1 ≤ a.month ∧ a.month ≤ 12)
    (hu : isHttpUrl a.torrent = false ∨ env.httpResult = .ok ())
    (hp : env.parseResult = .ok t)
    (hf : filter_by_month (torrentFileEntries t) a.month a.year = []) :
    run_main a env =
      { exitCode := 0, stdout := [noFilesMsg a.month a.year],
        stderr := [], loop := none } := by
  simp only [run_main]
  rw [if_neg (by omega)]
  have hfetch : run_main_validated a env = afterFetch a env := by
    rcases hu with hu | hu
    · simp only [run_main_validated, hu, Bool.false_eq_true, if_false]
    · by_cases hb : isHttpUrl a.torrent
      · simp only [run_main_validated, hb, if_true, hu]
      · simp only [run_main_validated, hb, Bool.false_eq_true, if_false]
  rw [hfetch]
  simp only [afterFetch, hp, hf, List.isEmpty_nil, if_true]

/-- C4 (counterexample to the claim as stated): with a parsable torrent
whose files match nothing for month 2, the run exits with status 0 and
writes nothing to stderr — the "empty filter result" error class is reported
on stdout with a zero exit status, not on stderr with a non-zero one. -/
theorem c4_counterexample_empty_filter_not_stderr :
    (run_main ⟨"t.torrent", 2, none, none, false, none⟩ sampleEnv).exitCode = 0 ∧
    (run_main ⟨"t.torrent", 2, none, none, false, none⟩ sampleEnv).stderr = [] ∧
    (run_main ⟨"t.torrent", 2, none, none, false, none⟩ sampleEnv).stdout =
      ["No files found for month 2"] := by
  decide

/-- C4 (amended): with a valid month, an HTTP failure or a parse failure is
reported to standard error and terminates the process immediately with exit
status 1 and no other output (hence no retry, recovery or partial-failure
handling), while an empty filter result is reported to standard output and
terminates with exit status 0. -/
theorem c4_amended_error_reporting (a : Args) (env : Env)
    (hm : 1 ≤ a.month ∧ a.month ≤ 12) :
    (∀ e, isHttpUrl a.torrent = true → env.httpResult = .error e →
      run_main a env =
        { exitCode := 1, stdout := [],
          stderr := ["Error downloading torrent: " ++ e], loop := none }) ∧
    (∀ e, isHttpUrl a.torrent = false ∨ env.httpResult = .ok () →
      env.parseResult = .error e →
      run_main a env =
        { exitCode := 1, stdout := [],
          stderr := ["Error parsing torrent: " ++ e], loop := none }) ∧
    (∀ t, isHttpUrl a.torrent = false ∨ env.httpResult = .ok () →
      env.parseResult = .ok t →
      filter_by_month (torrentFileEntries t) a.month a.year = [] →
      run_main a env =
        { exitCode := 0, stdout := [noFilesMsg a.month a.year],
          stderr := [], loop := none }) :=
  ⟨fun e hu he => run_main_http_error a env e hm hu he,
   fun e hu he => run_main_parse_error a env e hm hu he,
   fun t hu hp hf => run_main_no_match a env t hm hu hp hf⟩

/-- Witness for C4 (amended) at concrete inputs: a failing fetch for a URL
argument, a failing parse for a local path, and an unmatched month. -/
theorem c4_amended_error_reporting_witness :
    run_main ⟨"http://x", 1, none, none, false, none⟩ badEnv =
      { exitCode := 1, stdout := [],
        stderr := ["Error downloading torrent: boom"], loop := none } ∧
    run_main ⟨"t.torrent", 1, none, none, false, none⟩ badEnv =
      { exitCode := 1, stdout := [],
        stderr := ["Error parsing torrent: bad"], loop := none } ∧
    run_main ⟨"t.torrent", 2, none, none, false, none⟩ sampleEnv =
      { exitCode := 0, stdout := [noFilesMsg 2 none], stderr := [], loop := none } := by
  have h1 := c4_amended_error_reporting ⟨"http://x", 1, none, none, false, none⟩ badEnv (by decide)
  have h2 := c4_amended_error_reporting ⟨"t.torrent", 1, none, none, false, none⟩ badEnv (by decide)
  have h3 := c4_amended_error_reporting ⟨"t.torrent", 2, none, none, false, none⟩ sampleEnv (by decide)
  exact ⟨h1.1 "boom" (by decide) rfl, h2.2.1 "bad" (Or.inl (by decide)) rfl,
         h3.2.2 sampleTorrent (Or.inl (by decide)) rfl (by decide)⟩

/-- C5: when the month filter matches no files (with a valid month and a
successfully obtained torrent), the program prints the "no files found"
message (to stdout) and exits with status code 0. -/
theorem c5_no_match_exits_zero (a : Args) (env : Env) (t : Torrent)
    (hm : 1 ≤ a.month ∧ a.month ≤ 12)
    (hu : isHttpUrl a.torrent = false ∨ env.httpResult = .ok ())
    (hp : env.parseResult = .ok t)
    (hf : filter_by_month (torrentFileEntries t) a.month a.year = []) :
    run_main a env =
      { exitCode := 0, stdout := [noFilesMsg a.month a.year],
        stderr := [], loop := none } :=
  run_main_no_match a env t hm hu hp hf

/-- Witness for C5: month 2 matches nothing in the sample torrent; the run
prints the message and exits 0. -/
theorem c5_no_match_exits_zero_witness :
    run_main ⟨"t.torrent", 2, none, none, false, none⟩ sampleEnv =
      { exitCode := 0, stdout := [noFilesMsg 2 none], stderr := [], loop := none } :=
  c5_no_match_exits_zero ⟨"t.torrent", 2, none, none, false, none⟩ sampleEnv sampleTorrent
    (by decide) (Or.inl (by decide)) rfl (by decide)

/-- C9: for every file list and month/year argument, `filter_by_month`
returns a sublist of its input: every output element is an element of the
input, unmodified, and the relative order of elements is preserved. -/
theorem c9_filter_by_month_sublist (files : List FileEntry) (m : Int) (y : Option Int) :
    List.Sublist (filter_by_month files m y) files :=
  List.filter_sublist files

/-- C7: for every non-negative byte count `n`, `format_size` selects the
unit by thresholds: below 1024 the exact count with suffix `B`; from 1024 up
to 1024² the count divided by 1024 and rounded to an integer with suffix
`KiB`; from 1024² up to 1024³ divided by 1024² with suffix `MiB`; otherwise
divided by 1024³ with suffix `GiB` (rounding is `:.0f`, i.e. half-to-even on
the exact quotient). -/
theorem c7_format_size_thresholds (n : Nat) :
    (n < 1024 → format_size n = toString n ++ "B") ∧
    (1024 ≤ n → n < 1024 ^ 2 → format_size n = toString (roundHalfEven n 1024) ++ "KiB") ∧
    (1024 ^ 2 ≤ n → n < 1024 ^ 3 → format_size n = toString (roundHalfEven n (1024 ^ 2)) ++ "MiB") ∧
    (1024 ^ 3 ≤ n → format_size n = toString (roundHalfEven n (1024 ^ 3)) ++ "GiB") := by
  refine ⟨fun h => ?_, fun h1 h2 => ?_, fun h1 h2 => ?_, fun h1 => ?_⟩ <;>
    simp only [format_size]
  · rw [if_pos h]
  · rw [if_neg (by omega), if_pos h2]
  · rw [if_neg (by omega), if_neg (by omega), if_pos h2]
  · rw [if_neg (by omega), if_neg (by omega), if_neg (by omega)]

/-- Witness for C7 at concrete byte counts in each of the four ranges. -/
theorem c7_format_size_thresholds_witness :
    format_size 500 = "500B" ∧ format_size 1536 = "2KiB" ∧
    format_size (3 * 1024 ^ 2 + 524288) = "4MiB" ∧
    format_size (5 * 1024 ^ 3) = "5GiB" := by
  refine ⟨(c7_format_size_thresholds 500).1 (by decide), ?_, ?_, ?_⟩
  · rw [(c7_format_size_thresholds 1536).2.1 (by decide) (by decide)]; decide
  · rw [(c7_format_size_thresholds _).2.2.1 (by decide) (by decide)]; decide
  · rw [(c7_format_size_thresholds _).2.2.2 (by norm_num)]; decide

/-- Elementwise value of the priority vector: `1` when the 0-based index is
among the filtered entries' `index - 1` values, `0` otherwise. -/
theorem file_priorities_getElem (n : Nat) (fs : List FileEntry) (i : Nat) (hi : i < n) :
    (file_priorities n fs)[i]? =
      some (if (i : Int) ∈ fs.map (fun f => f.index - 1) then 1 else 0) := by
  simp only [file_priorities]
  rw [List.getElem?_map, List.getElem?_range hi, Option.map_some']

/-- C2: the per-file priority vector handed to the download engine by
`download_filtered_files` has length `num_files`, holds `1` exactly at the
0-based indices `index - 1` of the filtered entries, and `0` at every other
index. -/
theorem c2_file_priorities_select_filtered (n : Nat) (fs : List FileEntry)
    (sts : List TStatus) (intr : Option Nat) :
    (download_filtered_files n fs sts intr).priorities.length = n ∧
    ∀ i, i < n →
      ((∃ f ∈ fs, f.index - 1 = (i : Int)) →
        (download_filtered_files n fs sts intr).priorities[i]? = some 1) ∧
      ((∀ f ∈ fs, f.index - 1 ≠ (i : Int)) →
        (download_filtered_files n fs sts intr).priorities[i]? = some 0) := by
  have hbase : ∀ i, i < n →
      (download_filtered_files n fs sts intr).priorities[i]? =
        some (if (i : Int) ∈ fs.map (fun f => f.index - 1) then 1 else 0) := by
    intro i hi
    simp only [download_filtered_files]
    exact file_priorities_getElem n fs i hi
  refine ⟨by simp only [download_filtered_files, file_priorities, List.length_map,
    List.length_range], fun i hi => ⟨fun hex => ?_, fun hall => ?_⟩⟩
  · obtain ⟨f, hf, hfi⟩ := hex
    rw [hbase i hi, if_pos (List.mem_map.mpr ⟨f, hf, hfi⟩)]
  · have hnot : (i : Int) ∉ fs.map (fun f => f.index - 1) := by
      intro hmem
      obtain ⟨f, hf, hfi⟩ := List.mem_map.mp hmem
      exact hall f hf hfi
    rw [hbase i hi, if_neg hnot]

/-- Witness for C2: three files, one filtered entry with 1-based index 2;
priority 1 at 0-based index 1, priority 0 at index 0. -/
theorem c2_file_priorities_select_filtered_witness :
    (download_filtered_files 3 [⟨2, "p", "s", "sb"⟩] [] none).priorities[1]? = some 1 ∧
    (download_filtered_files 3 [⟨2, "p", "s", "sb"⟩] [] none).priorities[0]? = some 0 := by
  have h := c2_file_priorities_select_filtered 3 [⟨2, "p", "s", "sb"⟩] [] none
  exact ⟨(h.2 1 (by decide)).1 ⟨⟨2, "p", "s", "sb"⟩, by decide, by decide⟩,
         (h.2 0 (by decide)).2 (by decide)⟩

/-- C6: a month outside 1..12 is rejected up front — the error line goes to
stderr and the process exits with status 1, with nothing else printed and
without consulting the torrent (the result is the same for every
environment); a month within 1..12 passes validation and the run proceeds. -/
theorem c6_month_validation (a : Args) (env : Env) :
    ((a.month < 1 ∨ 12 < a.month) →
      run_main a env =
        { exitCode := 1, stdout := [],
          stderr := ["Error: Month must be between 1 and 12"], loop := none }) ∧
    (1 ≤ a.month → a.month ≤ 12 → run_main a env = run_main_validated a env) := by
  constructor
  · intro h
    simp only [run_main]
    rw [if_pos h]
  · intro h1 h2
    simp only [run_main]
    rw [if_neg (by omega)]

/-- Witness for C6: month 13 is rejected for one concrete environment, and
month 1 passes validation there. -/
theorem c6_month_validation_witness :
    run_main ⟨"t.torrent", 13, none, none, false, none⟩ sampleEnv =
      { exitCode := 1, stdout := [],
        stderr := ["Error: Month must be between 1 and 12"], loop := none } ∧
    run_main ⟨"t.torrent", 1, none, none, false, none⟩ sampleEnv =
      run_main_validated ⟨"t.torrent", 1, none, none, false, none⟩ sampleEnv :=
  ⟨(c6_month_validation ⟨"t.torrent", 13, none, none, false, none⟩ sampleEnv).1 (by decide),
   (c6_month_validation ⟨"t.torrent", 1, none, none, false, none⟩ sampleEnv).2 (by decide) (by decide)⟩

/-- Soundness of the polling loop, generalized over the iteration counter:
the event trace strictly alternates status checks and one-second sleeps; a
`completed` verdict means some observed status satisfied the completion
condition; an `interrupted` verdict means the interrupt fired at a reached
iteration; and with the status stream exhausted unfinished, no observed
status satisfied the condition and no interrupt fired. -/
theorem loopTraceAux_sound (statuses : List TStatus) (intr : Option Nat) (c : Nat) :
    altTrace (loopTraceAux statuses intr c).1 = true ∧
    ((loopTraceAux statuses intr c).2 = some ExitReason.completed →
      ∃ k, ∃ hk : k < statuses.length, loopExitCond (statuses.get ⟨k, hk⟩)) ∧
    ((loopTraceAux statuses intr c).2 = some ExitReason.interrupted →
      ∃ k, k < statuses.length ∧ intr = some (c + k)) ∧
    ((loopTraceAux statuses intr c).2 = none →
      ∀ k, (hk : k < statuses.length) →
        ¬ loopExitCond (statuses.get ⟨k, hk⟩) ∧ intr ≠ some (c + k)) := by
  induction statuses generalizing c with
  | nil =>
    refine ⟨by simp [loopTraceAux, altTrace], by simp [loopTraceAux], by simp [loopTraceAux],
      fun _ k hk => absurd hk (by simp)⟩
  | cons s rest ih =>
    by_cases h1 : s.state = TState.seeding
    · refine ⟨?_, ?_, ?_, ?_⟩ <;> simp only [loopTraceAux, if_pos h1]
      · simp [altTrace]
      · intro _
        exact ⟨0, by simp, Or.inl h1⟩
      · intro h; cases h
      · intro h; cases h
    · by_cases h2 : intr = some c
      · refine ⟨?_, ?_, ?_, ?_⟩ <;> simp only [loopTraceAux, if_neg h1, if_pos h2]
        · simp [altTrace]
        · intro h; cases h
        · intro _
          exact ⟨0, by simp, by simpa using h2⟩
        · intro h; cases h
      · by_cases h3 : 999 / 1000 ≤ s.progress ∧ 4 ≤ s.state.natCode
        · refine ⟨?_, ?_, ?_, ?_⟩ <;> simp only [loopTraceAux, if_neg h1, if_neg h2, if_pos h3]
          · simp [altTrace]
          · intro _
            exact ⟨0, by simp, Or.inr h3⟩
          · intro h; cases h
          · intro h; cases h
        · obtain ⟨iha, ihc, ihi, ihn⟩ := ih (c + 1)
          refine ⟨?_, ?_, ?_, ?_⟩ <;> simp only [loopTraceAux, if_neg h1, if_neg h2, if_neg h3]
          · simpa [altTrace] using iha
          · intro h
            obtain ⟨k, hk, hcond⟩ := ihc h
            exact ⟨k + 1, by simpa using hk, hcond⟩
          · intro h
            obtain ⟨k, hk, hintr⟩ := ihi h
            exact ⟨k + 1, by simpa using hk, by rw [hintr]; congr 1; omega⟩
          · intro h k hk
            match k with
            | 0 =>
              refine ⟨?_, by simpa using h2⟩
              intro hcond
              rcases hcond with hcond | hcond
              · exact h1 hcond
              · exact h3 hcond
            | k + 1 =>
              have := ihn h k (by simpa using hk)
              refine ⟨this.1, ?_⟩
              have heq : c + 1 + k = c + (k + 1) := by omega
              rw [← heq]
              exact this.2

/-- C8: during a download, the status-polling loop alternates exactly one
status check with one one-second sleep per iteration, and it stops only on
completion — a `seeding` state, or progress at least 0.999 in a state whose
code is at least `finished`'s — or on a user interrupt; when the observed
status stream is exhausted with neither, the loop is still running. -/
theorem c8_poll_loop_stops_only_on_completion_or_interrupt
    (statuses : List TStatus) (intr : Option Nat) :
    altTrace (pollLoop statuses intr).1 = true ∧
    ((pollLoop statuses intr).2 = some ExitReason.completed →
      ∃ k, ∃ hk : k < statuses.length,
        (statuses.get ⟨k, hk⟩).state = TState.seeding ∨
          (999 / 1000 ≤ (statuses.get ⟨k, hk⟩).progress ∧
            4 ≤ (statuses.get ⟨k, hk⟩).state.natCode)) ∧
    ((pollLoop statuses intr).2 = some ExitReason.interrupted →
      ∃ k, k < statuses.length ∧ intr = some k) ∧
    ((pollLoop statuses intr).2 = none →
      ∀ k, (hk : k < statuses.length) →
        ¬ ((statuses.get ⟨k, hk⟩).state = TState.seeding ∨
            (999 / 1000 ≤ (statuses.get ⟨k, hk⟩).progress ∧
              4 ≤ (statuses.get ⟨k, hk⟩).state.natCode)) ∧ intr ≠ some k) := by
  obtain ⟨ha, hc, hi, hn⟩ := loopTraceAux_sound statuses intr 0
  refine ⟨ha, hc, ?_, ?_⟩
  · intro h
    obtain ⟨k, hk, hintr⟩ := hi h
    exact ⟨k, hk, by simpa using hintr⟩
  · intro h k hk
    have := hn h k hk
    exact ⟨this.1, by simpa using this.2⟩

/-- Witness for C8: a stream whose first status is `seeding` makes the loop
stop as completed after exactly one status check. -/
theorem c8_poll_loop_witness :
    altTrace (pollLoop [⟨TState.seeding, 1⟩] none).1 = true ∧
    ∃ k, ∃ hk : k < ([⟨TState.seeding, 1⟩] : List TStatus).length,
      (([⟨TState.seeding, 1⟩] : List TStatus).get ⟨k, hk⟩).state = TState.seeding ∨
        (999 / 1000 ≤ (([⟨TState.seeding, 1⟩] : List TStatus).get ⟨k, hk⟩).progress ∧
          4 ≤ (([⟨TState.seeding, 1⟩] : List TStatus).get ⟨k, hk⟩).state.natCode) :=
  ⟨(c8_poll_loop_stops_only_on_completion_or_interrupt [⟨TState.seeding, 1⟩] none).1,
   (c8_poll_loop_stops_only_on_completion_or_interrupt [⟨TState.seeding, 1⟩] none).2.1
     (by decide)⟩

/-- The regex search of the source coincides with the spec's "contains
`_YYYY-MM.zst` at the end" predicate applied to the path stripped of one
final newline (the extra latitude CPython's `$` grants). -/
theorem re_search_month_eq_spec (l : List Char) (m : Int) (y : Option Int) :
    re_search_month l m y = true ↔ spec_matches_month (stripFinalNewline l) m y := by
  cases y with
  | some yy =>
    simp only [re_search_month, spec_matches_month, List.isSuffixOf_iff_suffix]
  | none =>
    constructor
    · intro h
      simp only [re_search_month, Bool.and_eq_true, List.isSuffixOf_iff_suffix] at h
      obtain ⟨⟨front, hfront⟩, hmatch⟩ := h
      have hlen : (stripFinalNewline l).length - (monthTail m).length = front.length := by
        rw [← hfront]; simp only [List.length_append]; omega
      rw [hlen, ← hfront, List.take_left] at hmatch
      simp only [spec_matches_month]
      rcases hrev : front.reverse with _ | ⟨d4, _ | ⟨d3, _ | ⟨d2, _ | ⟨d1, _ | ⟨u, rest⟩⟩⟩⟩⟩ <;>
        rw [hrev] at hmatch <;>
        simp only [Bool.and_eq_true, beq_iff_eq, Bool.false_eq_true] at hmatch
      obtain ⟨⟨⟨⟨hu, hd1⟩, hd2⟩, hd3⟩, hd4⟩ := hmatch
      have hfr : front = rest.reverse ++ [u, d1, d2, d3, d4] := by
        have hc := congrArg List.reverse hrev
        simpa using hc
      refine ⟨d1, d2, d3, d4, hd1, hd2, hd3, hd4, rest.reverse, ?_⟩
      rw [← hfront, hfr, hu]
      simp
    · rintro ⟨d1, d2, d3, d4, hd1, hd2, hd3, hd4, pre, hpre⟩
      simp only [re_search_month, Bool.and_eq_true, List.isSuffixOf_iff_suffix]
      have hcore : (pre ++ ['_', d1, d2, d3, d4]) ++ monthTail m = stripFinalNewline l := by
        rw [← hpre]; simp
      refine ⟨⟨pre ++ ['_', d1, d2, d3, d4], hcore⟩, ?_⟩
      have hlen : (stripFinalNewline l).length - (monthTail m).length
          = (pre ++ ['_', d1, d2, d3, d4]).length := by
        rw [← hcore]
        simp only [List.length_append, List.length_cons]
        omega
      rw [hlen, ← hcore, List.take_left]
      have hr : (pre ++ ['_', d1, d2, d3, d4]).reverse
          = d4 :: d3 :: d2 :: d1 :: '_' :: pre.reverse := by simp
      rw [hr]
      simp [hd1, hd2, hd3, hd4]

/-- C1 (counterexample to the claim as stated): a path ending in
`_2023-05.zst` followed by a newline is kept by `filter_by_month` for
month 5 — CPython's `$` matches just before a final newline — although the
pattern is not at the end of the path. -/
theorem c1_counterexample_trailing_newline :
    filter_by_month [⟨1, "a_2023-05.zst\n", "s", "b"⟩] 5 none
        = [⟨1, "a_2023-05.zst\n", "s", "b"⟩] ∧
    ¬ spec_matches_month "a_2023-05.zst\n".data 5 none := by
  refine ⟨by decide, ?_⟩
  rintro ⟨d1, d2, d3, d4, -, -, -, -, pre, hpre⟩
  have hshape : ('_' :: d1 :: d2 :: d3 :: d4 :: monthTail 5)
      = ('_' :: d1 :: d2 :: d3 :: d4 :: []) ++ monthTail 5 := by simp
  rw [hshape, ← List.append_assoc] at hpre
  have hlast : ("a_2023-05.zst\n".data).getLast? = (monthTail 5).getLast? := by
    rw [← hpre]
    exact List.getLast?_append_of_ne_nil _ (by decide)
  rw [show (monthTail 5).getLast? = some 't' from by decide] at hlast
  exact absurd hlast (by decide)

/-- C1 (amended): for every file list, month and optional year,
`filter_by_month` keeps exactly the files whose path — after discarding one
trailing newline if present — ends with the substring `_YYYY-MM.zst`, where
`MM` is the month zero-padded to two digits, `YYYY` is the decimal rendering
of the year when one is given, and any four digit characters when it is
omitted. -/
theorem c1_amended_filter_keeps_matching_paths
    (files : List FileEntry) (m : Int) (y : Option Int) (f : FileEntry) :
    f ∈ filter_by_month files m y ↔
      f ∈ files ∧ spec_matches_month (stripFinalNewline f.path.data) m y := by
  rw [filter_by_month, List.mem_filter, re_search_month_eq_spec]

/-- With only non-negative indices, the comprehension of
`save_filtered_torrent` succeeds and picks, in order, the original file at
each index, skipping indices at or beyond the end of the list. -/
theorem buildNewFiles_eq_filterMap (files : List TorrentFile) (idxs : List Int)
    (h : ∀ i ∈ idxs, 0 ≤ i) :
    buildNewFiles files idxs = .ok (idxs.filterMap fun i => files[i.toNat]?) := by
  induction idxs with
  | nil => rfl
  | cons i rest ih =>
    have hi : 0 ≤ i := h i (List.mem_cons_self i rest)
    have hrest : ∀ j ∈ rest, 0 ≤ j := fun j hj => h j (List.mem_cons_of_mem i hj)
    have hpy : pyGet files i = files[i.toNat]? := by
      simp only [pyGet, if_pos hi]
    by_cases hlt : i < (files.length : Int)
    · have htn : i.toNat < files.length := by omega
      simp only [buildNewFiles, if_pos hlt, hpy, List.getElem?_eq_getElem htn]
      rw [ih hrest]
      simp [List.filterMap_cons, List.getElem?_eq_getElem htn, Except.map]
    · have hnone : files[i.toNat]? = none := by
        apply List.getElem?_eq_none
        omega
      simp only [buildNewFiles, if_neg hlt]
      rw [ih hrest]
      simp [List.filterMap_cons, hnone]

/-- C10: whenever `save_filtered_torrent` produces a torrent (for entries
with 1-based indices, as the pipeline builds them), that torrent carries the
original's comment and announce URLs unchanged, and its file list is exactly
the original `(path, size)` pairs at the in-range positions `index - 1` of
the filtered entries, in the filtered list's order. -/
theorem c10_save_keeps_metadata_and_selected_files (t : Torrent)
    (filtered : List FileEntry) (hpos : ∀ f ∈ filtered, 1 ≤ f.index) (nt : Torrent)
    (hok : save_filtered_torrent t filtered = .ok nt) :
    nt.comment = t.comment ∧ nt.announce_urls = t.announce_urls ∧
    nt.files = filtered.filterMap fun f => t.files[(f.index - 1).toNat]? := by
  have hidx : ∀ i ∈ filtered.map (fun f => f.index - 1), 0 ≤ i := by
    intro i hi
    obtain ⟨f, hf, rfl⟩ := List.mem_map.mp hi
    have := hpos f hf
    omega
  have hb := buildNewFiles_eq_filterMap t.files (filtered.map fun f => f.index - 1) hidx
  rw [List.filterMap_map] at hb
  have hcomp : ((fun i : Int => t.files[i.toNat]?) ∘ fun f : FileEntry => f.index - 1)
      = fun f : FileEntry => t.files[(f.index - 1).toNat]? := rfl
  rw [hcomp] at hb
  simp only [save_filtered_torrent, hb] at hok
  by_cases he : (filtered.filterMap fun f => t.files[(f.index - 1).toNat]?).isEmpty
  · rw [if_pos he] at hok
    cases hok
  · rw [if_neg he] at hok
    injection hok with hok
    subst hok
    exact ⟨rfl, rfl, rfl⟩

/-- Witness for C10 at the sample torrent and its month-1 entries. -/
theorem c10_save_keeps_metadata_and_selected_files_witness :
    sampleSaved.comment = sampleTorrent.comment ∧
    sampleSaved.announce_urls = sampleTorrent.announce_urls ∧
    sampleSaved.files =
      sampleFiltered.filterMap fun f => sampleTorrent.files[(f.index - 1).toNat]? :=
  c10_save_keeps_metadata_and_selected_files sampleTorrent sampleFiltered
    (by decide) sampleSaved (by decide)

/-- C3: `get_torrent_file_list` numbers entries so that the entry stored at
0-based position `k` has 1-based index `k + 1` and carries the path and the
size renderings of the original file at position `k` — so index `i` refers
to position `i - 1` — and both consumers of these indices preserve the
correspondence: `save_filtered_torrent` selects exactly the original files
at positions `index - 1`, and `download_filtered_files` assigns priority `1`
exactly at positions `index - 1`. -/
theorem c3_entry_indices_refer_to_original_positions (t : Torrent) :
    (torrentFileEntries t).length = t.files.length ∧
    (∀ k, (hk : k < t.files.length) →
      (torrentFileEntries t)[k]? =
        some { index := (k : Int) + 1
               path := t.files[k].path
               size := format_size t.files[k].size
               size_bytes := py_thousands t.files[k].size }) ∧
    (∀ filtered : List FileEntry, (∀ f ∈ filtered, 1 ≤ f.index) →
      buildNewFiles t.files (filtered.map fun f => f.index - 1) =
        .ok (filtered.filterMap fun f => t.files[(f.index - 1).toNat]?)) ∧
    (∀ n filtered, ∀ i : Nat, i < n →
      ((file_priorities n filtered)[i]? = some 1 ↔
        ∃ f ∈ filtered, f.index - 1 = (i : Int))) := by
  refine ⟨by simp [torrentFileEntries], fun k hk => ?_, fun filtered hpos => ?_, ?_⟩
  · simp [torrentFileEntries, List.getElem?_enum, List.getElem?_eq_getElem hk, mkEntry]
  · have hidx : ∀ i ∈ filtered.map (fun f => f.index - 1), 0 ≤ i := by
      intro i hi
      obtain ⟨f, hf, rfl⟩ := List.mem_map.mp hi
      have := hpos f hf
      omega
    have hb := buildNewFiles_eq_filterMap t.files (filtered.map fun f => f.index - 1) hidx
    rw [List.filterMap_map] at hb
    exact hb
  · intro n filtered i hi
    rw [file_priorities_getElem n filtered i hi]
    constructor
    · intro h1
      by_cases hmem : (i : Int) ∈ filtered.map fun f => f.index - 1
      · obtain ⟨f, hf, hfi⟩ := List.mem_map.mp hmem
        exact ⟨f, hf, hfi⟩
      · rw [if_neg hmem] at h1
        cases h1
    · rintro ⟨f, hf, hfi⟩
      rw [if_pos (List.mem_map.mpr ⟨f, hf, hfi⟩)]

/-- Witness for C3 at the sample torrent: the entry at position 1 has index
2 and the original path/size renderings; the save comprehension and the
priority vector follow the `index - 1` correspondence. -/
theorem c3_entry_indices_refer_to_original_positions_witness :
    (torrentFileEntries sampleTorrent).length = sampleTorrent.files.length ∧
    (torrentFileEntries sampleTorrent)[1]? =
      some { index := 2
             path := "a_2023-01.zst"
             size := format_size 2048
             size_bytes := py_thousands 2048 } ∧
    buildNewFiles sampleTorrent.files (sampleFiltered.map fun f => f.index - 1) =
      .ok (sampleFiltered.filterMap fun f => sampleTorrent.files[(f.index - 1).toNat]?) ∧
    (file_priorities 2 sampleFiltered)[1]? = some 1 := by
  have h := c3_entry_indices_refer_to_original_positions sampleTorrent
  refine ⟨h.1, ?_, h.2.2.1 sampleFiltered (by decide), ?_⟩
  · rw [h.2.1 1 (by decide)]
    decide
  · exact (h.2.2.2 2 sampleFiltered 1 (by decide)).mpr
      ⟨⟨2, "a_2023-01.zst", "2KiB", "2,048"⟩, by decide, by decide⟩

end Tordown
